import Mathlib

/-!
Verification development for the virtual-register / peripheral-simulation
engine of the PICMG iot-foundry-atmega-endpoint repository
(`sim/sim_regs.cpp`, `sim/sim_types.h`, `sim/simulator.h`).

The simulator keeps two name-keyed tables of register cells (8-bit and
16-bit), a host pseudo-terminal (master side, non-blocking), and installs
read/write callbacks on the USART data and status cells of channels 0-3.
We shallowly embed the state and each callback as a pure function on an
explicit state record.  Machine integers are `Nat` with explicit `% 256`
(resp. `% 65536`) where the C code truncates to `uint8_t`/`uint16_t`.

Build-time configuration constants (`GENERATED_F_CPU`, `SERIAL_BAUD`,
`SERIAL_RX_PORT`, `SERIAL_RX_PIN`, `SERIAL_TX_PIN`, `SERIAL_MUX_ANDMASK`,
`SERIAL_MUX_ORMASK`) come from the generated header
`generated_serial_config.h`, which is produced by a generator that is not
part of the sources; following the specification they are treated as
opaque read-only inputs and modelled as fields of a `Config` record.
The active register-naming family is the newer one
(`SERIAL_UART_TYPE_USART_0SERIES`, ATmega4809-class targets, the build's
default), so the `#ifdef SERIAL_UART_TYPE_USART_0SERIES` branches of the
source are the ones embedded.

A preprocessor-level fact of the source decides several claims:
`sim_regs.cpp` includes only `simulator.h`, `generated_serial_config.h`
and `sim_types.h` — not the avr-io shim — and the source itself rules
out the status-bit macros being defined in any build of this translation
unit that compiles: if any of `USART_DREIF_bm`/`UDRE`/`UDRE0` were
defined, lines 230/232/234 (`status = status & (uint8_t)USART_DREIF_bm);`,
stray `)`) would be syntax errors, and if any of
`USART_TXCIF_bm`/`TXC`/`TXC0` were defined, line 245 would assign the
`void` result of `raw_store` to a `uint8_t`.  Hence in every compiling
build the `#ifdef`-guarded DREIF-clear in `txdatal_write_cb` /
`udr_write_cb` and both set-blocks of the probabilistic completion in
`status_read_cb` / `ucsra_read_cb` are preprocessed away: a transmit
write touches only the data cell, and a status read's zero test is
`if (!status)` on the whole byte with an empty body.  Only the RXCIF
bit 0x80, written as a literal in the source, is ever set or cleared.
-/

set_option maxRecDepth 8192

namespace AtmegaSim

/-- A register table: name-keyed association list of stored values,
mirroring `std::unordered_map<std::string, std::unique_ptr<RegN>>`
(`_r8` / `_r16` in `Simulator`).  Cell identity is the name; the stored
value is the `_val` field of the cell. -/
abbrev RegTable := List (String × Nat)

/-- Look a name up in a register table (`_rN.find(name)`). -/
def regFind : RegTable → String → Option Nat
  | [], _ => none
  | (m, w) :: t, n => if m = n then some w else regFind t n

/-- Value of a cell, defaulting to 0: a freshly created cell's `_val`
is 0 (`Reg8::Reg8` initialises `_val(0)`), so reading through
`reg8(name).raw()` yields the stored value, or 0 if the cell is new. -/
def regGet (t : RegTable) (n : String) : Nat := (regFind t n).getD 0

/-- `reg8(name)` / `reg16(name)`: ensure the cell exists, creating it
with default value 0 if absent (`_rN.emplace(name, ...)`). -/
def regEnsure : RegTable → String → RegTable
  | [], n => [(n, 0)]
  | (m, w) :: t, n => if m = n then (m, w) :: t else (m, w) :: regEnsure t n

/-- `raw_store(v)` on the cell named `n` (creating the cell if absent,
as `reg8(name)` does before the store). -/
def regStore : RegTable → String → Nat → RegTable
  | [], n, v => [(n, v)]
  | (m, w) :: t, n, v => if m = n then (m, v) :: t else (m, w) :: regStore t n v

/-- Build-time constants consumed from `generated_serial_config.h`
(opaque read-only inputs per the spec). -/
structure Config where
  fcpu : Nat
  baud : Nat
  rxPort : String
  rxPin : Nat
  txPin : Nat
  muxAndMask : Nat
  muxOrMask : Nat
  deriving DecidableEq

/-- Simulator state: the two register tables, whether the pseudo-terminal
master was successfully created (`master_fd >= 0`), the bytes pending on
the master side (sent by the external harness, not yet consumed), and the
bytes written out to the master (observable on the external side). -/
structure SimState where
  r8 : RegTable
  r16 : RegTable
  ptyOpen : Bool
  ptyIn : List Nat
  ptyOut : List Nat
  deriving DecidableEq

/-- 8-bit read of the stored value of cell `n` (`reg8(n).raw()`);
values are bytes, hence the `% 256`. -/
def reg8get (s : SimState) (n : String) : Nat := regGet s.r8 n % 256

/-- 16-bit read of the stored value of cell `n` (`reg16(n).raw()`). -/
def reg16get (s : SimState) (n : String) : Nat := regGet s.r16 n % 65536

/-- 8-bit `raw_store` into cell `n`. -/
def reg8set (s : SimState) (n : String) (v : Nat) : SimState :=
  { s with r8 := regStore s.r8 n (v % 256) }

/-- `"USART%d" ++ suffix` register names built by `snprintf` in the
callbacks. -/
def chName (idx : Nat) (suffix : String) : String :=
  "USART" ++ (toString idx ++ suffix)

/-- `USART%d_STATUS`. -/
def statusName (idx : Nat) : String := chName idx ("_STATUS")

/-- `USART%d_TXDATAL`. -/
def txName (idx : Nat) : String := chName idx ("_TXDATAL")

/-- `USART%d_RXDATAL`. -/
def rxName (idx : Nat) : String := chName idx ("_RXDATAL")

/-- `USART%d_BAUD` (a 16-bit cell). -/
def baudName (idx : Nat) : String := chName idx ("_BAUD")

/-- `USART%d_CTRLB`. -/
def ctrlbName (idx : Nat) : String := chName idx ("_CTRLB")

/-- `USART%d_CTRLC`. -/
def ctrlcName (idx : Nat) : String := chName idx ("_CTRLC")

/-- `UDR%d` (classic-family single data register). -/
def udrName (idx : Nat) : String := "UDR" ++ (toString idx ++ "")

/-- `UCSR%dA` (classic-family status register). -/
def ucsraName (idx : Nat) : String := "UCSR" ++ (toString idx ++ "A")

/-- `PORT%s_DIR` built from `SERIAL_RX_PORT`. -/
def ddrName (c : Config) : String := "PORT" ++ (c.rxPort ++ "_DIR")

/-- `PORTMUX_USARTROUTEA`. -/
def pmName : String := "PORTMUX_USARTROUTEA"

/-- `CLKCTRL_MCLKCTRLB`. -/
def clkName : String := "CLKCTRL_MCLKCTRLB"

/-- `uint8_t rx_pin_mask = (1 << SERIAL_RX_PIN)`. -/
def rxMask (c : Config) : Nat := 2 ^ c.rxPin % 256

/-- `uint8_t tx_pin_mask = (1 << SERIAL_TX_PIN)`. -/
def txMask (c : Config) : Nat := 2 ^ c.txPin % 256

/-- `(uint16_t)((8UL * GENERATED_F_CPU) / (2UL * SERIAL_BAUD))`: the
expected 0-series baud divisor. -/
def expectedBaud (c : Config) : Nat := 8 * c.fcpu / (2 * c.baud) % 65536

/-- `Simulator::validate_configuration` (0-series branch): the chain of
early-return checks, as a boolean conjunction in source order.  The
`fprintf` diagnostics on the failure paths are the only side effects
dropped. -/
def validate (c : Config) (s : SimState) (idx : Nat) : Bool :=
  (reg16get s (baudName idx) == expectedBaud c) &&
  ((reg8get s (ddrName c) &&& rxMask c) == 0) &&
  (!((reg8get s (ddrName c) &&& txMask c) == 0)) &&
  ((reg8get s pmName &&& (255 ^^^ c.muxAndMask % 256)) == c.muxOrMask) &&
  ((reg8get s (ctrlbName idx) &&& 0xc0) == 0xc0) &&
  ((reg8get s (ctrlbName idx) &&& 0x07) == 0) &&
  (reg8get s (ctrlcName idx) == 0x03) &&
  (reg8get s clkName == 0)

/-- `Simulator::poll_pty_nonblocking`: calls the validator (result
discarded), returns if `master_fd < 0`, otherwise sets the RXCIF bit
(0x80) in `USART%d_STATUS` when the master side has unread bytes
(`ioctl FIONREAD`). -/
def poll (s : SimState) (idx : Nat) : SimState :=
  if s.ptyOpen = false then s
  else if s.ptyIn.length > 0 then
    reg8set s (statusName idx) (reg8get s (statusName idx) ||| 0x80)
  else s

/-- `Simulator::txdatal_write_cb` (0-series branch): store the byte into
`USART%d_TXDATAL`; then, if the configuration validates, `::write` the
byte to the pty master (which fails silently when the master was never
created).  The "clear the data register empty flag" block (lines
169-178) is guarded by `#ifdef USART_DREIF_bm` / `UDRE` / `UDRE0` with
no `#else`; none of those macros can be defined in a compiling build of
this translation unit (see the header comment), so the status cell is
not touched. -/
def txWrite (c : Config) (s : SimState) (idx b : Nat) : SimState :=
  let s1 := reg8set s (txName idx) b
  if validate c s1 idx then
    if s1.ptyOpen then { s1 with ptyOut := s1.ptyOut ++ [b % 256] } else s1
  else s1

/-- `Simulator::udr_write_cb` (classic-register names, same build): store
the byte into `UDR%d`; then, if the configuration validates, `::write`
the byte to the pty master.  As in `txdatal_write_cb`, the DREIF-clear
block (lines 198-207) is preprocessed away in every compiling build, so
`UCSR%dA` is not touched. -/
def udrWrite (c : Config) (s : SimState) (idx b : Nat) : SimState :=
  let s1 := reg8set s (udrName idx) b
  if validate c s1 idx then
    if s1.ptyOpen then { s1 with ptyOut := s1.ptyOut ++ [b % 256] } else s1
  else s1

/-- `rand() % 100 > 95`: the residues of the per-poll random draw that
trigger the simulated transmission-complete transition in
`status_read_cb` / `ucsra_read_cb`. -/
def txTrigger (r : Nat) : Bool := 95 < r % 100

/-- `Simulator::status_read_cb`: poll the pty first; then, if the channel
validates, read the raw status byte and — the DREIF-mask line at 230
being preprocessed away — test `if (!status)` on the whole byte; when it
is zero, draw `rand() % 100` (passed in explicitly as `r`) and compare
`r > 95`, but both set-blocks of the triggering branch (TXCIF at 244-250,
DREIF at 252-259) are preprocessed away in every compiling build, so no
branch stores anything; finally return the raw status value.  All three
conditionals are kept here, each with an empty (state-preserving) body,
mirroring the compiled control flow. -/
def statusRead (c : Config) (s : SimState) (idx : Nat) (r : Nat) : Nat × SimState :=
  let s1 := poll s idx
  let s2 :=
    if validate c s1 idx then
      if reg8get s1 (statusName idx) == 0 then
        if txTrigger r then s1 else s1
      else s1
    else s1
  (reg8get s2 (statusName idx), s2)

/-- A status read returns the polled raw status value and performs no
state change beyond the poll: the probabilistic completion transition is
dead code. -/
theorem statusRead_eq (c : Config) (s : SimState) (idx r : Nat) :
    statusRead c s idx r = (reg8get (poll s idx) (statusName idx), poll s idx) := by
  simp [statusRead]

/-- `Simulator::rxdatal_read_cb`: capture the stored `USART%d_RXDATAL`
byte as fallback; return it at once if validation fails; otherwise, if
the master side has an unread byte, consume exactly one, store it into
the cell, clear RXCIF (0x80) in the status cell, then re-poll; return
the byte.  `ioctl FIONREAD` on a never-created master leaves the count
at 0. -/
def rxRead (c : Config) (s : SimState) (idx : Nat) : Nat × SimState :=
  let v := reg8get s (rxName idx)
  if validate c s idx = false then (v, s)
  else if s.ptyOpen = false then (v, poll s idx)
  else
    match s.ptyIn with
    | [] => (v, poll s idx)
    | b :: rest =>
      let s1 := { s with ptyIn := rest }
      let s2 := reg8set s1 (rxName idx) b
      let s3 := reg8set s2 (statusName idx) (reg8get s2 (statusName idx) &&& 0x7f)
      (b % 256, poll s3 idx)

/-- `Simulator::validate_configuration` with its register-table side
effects made explicit: every `reg8(...)` / `reg16(...)` call creates the
cell if absent, even on the early-return failure paths.  Returns the
boolean verdict together with the post-call state. -/
def validateStep (c : Config) (s : SimState) (idx : Nat) : Bool × SimState :=
  let t0 := { s with r16 := regEnsure s.r16 (baudName idx) }
  if !(reg16get t0 (baudName idx) == expectedBaud c) then (false, t0) else
  let t1 := { t0 with r8 := regEnsure t0.r8 (ddrName c) }
  if !((reg8get t1 (ddrName c) &&& rxMask c) == 0) then (false, t1) else
  if (reg8get t1 (ddrName c) &&& txMask c) == 0 then (false, t1) else
  let t2 := { t1 with r8 := regEnsure t1.r8 pmName }
  if !((reg8get t2 pmName &&& (255 ^^^ c.muxAndMask % 256)) == c.muxOrMask) then (false, t2) else
  let t3 := { t2 with r8 := regEnsure t2.r8 (ctrlbName idx) }
  if !((reg8get t3 (ctrlbName idx) &&& 0xc0) == 0xc0) then (false, t3) else
  if !((reg8get t3 (ctrlbName idx) &&& 0x07) == 0) then (false, t3) else
  let t4 := { t3 with r8 := regEnsure t3.r8 (ctrlcName idx) }
  if !(reg8get t4 (ctrlcName idx) == 0x03) then (false, t4) else
  let t5 := { t4 with r8 := regEnsure t4.r8 clkName }
  if !(reg8get t5 clkName == 0) then (false, t5) else
  (true, t5)

/-- The operations the simulator wiring installs: the constructor hooks
channels 0-3 only, so the channel index is a `Fin 4`.  The random draw
of a status read is carried in the operation. -/
inductive SimOp where
  | tx (idx : Fin 4) (b : Nat)
  | rx (idx : Fin 4)
  | status (idx : Fin 4) (r : Nat)
  | pollOp (idx : Fin 4)
  deriving DecidableEq

/-- One callback invocation. -/
def stepOp (c : Config) (s : SimState) : SimOp → SimState
  | .tx i b => txWrite c s i.val b
  | .rx i => (rxRead c s i.val).snd
  | .status i r => (statusRead c s i.val r).snd
  | .pollOp i => poll s i.val

/-- Run a sequence of callback invocations. -/
def runOps (c : Config) (s : SimState) : List SimOp → SimState
  | [] => s
  | o :: os => runOps c (stepOp c s o) os

/-! ### Register-table lemmas -/

theorem regFind_store_self (t : RegTable) (n : String) (v : Nat) :
    regFind (regStore t n v) n = some v := by
  induction t with
  | nil => simp [regStore, regFind]
  | cons hd tl ih =>
    obtain ⟨k, w⟩ := hd
    by_cases hk : k = n
    · subst hk; simp [regStore, regFind]
    · simp [regStore, regFind, hk, ih]

theorem regGet_store_self (t : RegTable) (n : String) (v : Nat) :
    regGet (regStore t n v) n = v := by
  simp [regGet, regFind_store_self]

theorem regFind_store_ne (t : RegTable) (n m : String) (v : Nat) (h : m ≠ n) :
    regFind (regStore t n v) m = regFind t m := by
  have hnm : ¬ (n = m) := fun hh => h hh.symm
  induction t with
  | nil => simp [regStore, regFind, hnm]
  | cons hd tl ih =>
    obtain ⟨k, w⟩ := hd
    by_cases hk : k = n
    · subst hk; simp [regStore, regFind, hnm]
    · simp [regStore, regFind, hk, ih]

theorem regGet_store_ne (t : RegTable) (n m : String) (v : Nat) (h : m ≠ n) :
    regGet (regStore t n v) m = regGet t m := by
  simp [regGet, regFind_store_ne t n m v h]

theorem regFind_ensure_self (t : RegTable) (n : String) :
    regFind (regEnsure t n) n = some (regGet t n) := by
  induction t with
  | nil => simp [regEnsure, regFind, regGet]
  | cons hd tl ih =>
    obtain ⟨k, w⟩ := hd
    by_cases hk : k = n
    · subst hk; simp [regEnsure, regFind, regGet]
    · simp [regEnsure, regFind, regGet, hk, ih]

theorem regFind_ensure_ne (t : RegTable) (n m : String) (h : m ≠ n) :
    regFind (regEnsure t n) m = regFind t m := by
  have hnm : ¬ (n = m) := fun hh => h hh.symm
  induction t with
  | nil => simp [regEnsure, regFind, hnm]
  | cons hd tl ih =>
    obtain ⟨k, w⟩ := hd
    by_cases hk : k = n
    · subst hk; simp [regEnsure, regFind]
    · simp [regEnsure, regFind, hk, ih]

theorem regGet_ensure (t : RegTable) (n m : String) :
    regGet (regEnsure t n) m = regGet t m := by
  by_cases h : m = n
  · subst h; simp [regGet, regFind_ensure_self]
  · simp [regGet, regFind_ensure_ne t n m h]

theorem regFind_ensure_mono (t : RegTable) (n m : String) (v : Nat)
    (h : regFind t m = some v) : regFind (regEnsure t n) m = some v := by
  by_cases hm : m = n
  · subst hm
    rw [regFind_ensure_self]
    simp [regGet, h]
  · rw [regFind_ensure_ne t n m hm]
    exact h

theorem length_regEnsure (t : RegTable) (n : String) :
    t.length ≤ (regEnsure t n).length := by
  induction t with
  | nil => simp [regEnsure]
  | cons hd tl ih =>
    obtain ⟨k, w⟩ := hd
    by_cases hk : k = n
    · subst hk; simp [regEnsure]
    · simpa [regEnsure, hk] using ih

/-! ### 8-bit view lemmas -/

theorem reg8get_lt (s : SimState) (n : String) : reg8get s n < 256 :=
  Nat.mod_lt _ (by omega)

theorem reg8get_set_self (s : SimState) (n : String) (v : Nat) :
    reg8get (reg8set s n v) n = v % 256 := by
  simp [reg8get, reg8set, regGet_store_self]

theorem reg8get_set_ne (s : SimState) (n m : String) (v : Nat) (h : m ≠ n) :
    reg8get (reg8set s n v) m = reg8get s m := by
  simp [reg8get, reg8set, regGet_store_ne _ _ _ _ h]

theorem reg16get_set (s : SimState) (n m : String) (v : Nat) :
    reg16get (reg8set s n v) m = reg16get s m := rfl

theorem ptyOpen_set (s : SimState) (n : String) (v : Nat) :
    (reg8set s n v).ptyOpen = s.ptyOpen := rfl

theorem ptyIn_set (s : SimState) (n : String) (v : Nat) :
    (reg8set s n v).ptyIn = s.ptyIn := rfl

theorem ptyOut_set (s : SimState) (n : String) (v : Nat) :
    (reg8set s n v).ptyOut = s.ptyOut := rfl

/-! ### Register-name disjointness -/

theorem string_data_inj (x y : String) (h : x.data = y.data) : x = y := by
  cases x; cases y; exact congrArg String.mk h

theorem string_append_left_cancel (a x y : String) (h : a ++ x = a ++ y) : x = y := by
  have h2 : a.data ++ x.data = a.data ++ y.data := congrArg String.data h
  exact string_data_inj _ _ (List.append_cancel_left h2)

theorem usart_ne_port (x y : String) : ("USART" ++ x) ≠ ("PORT" ++ y) := by
  intro h
  have h2 : 'U' :: ('S' :: ('A' :: ('R' :: ('T' :: x.data)))) =
      'P' :: ('O' :: ('R' :: ('T' :: y.data))) := congrArg String.data h
  simp at h2

theorem usart_ne_clk (x : String) : ("USART" ++ x) ≠ clkName := by
  intro h
  have h2 : 'U' :: ('S' :: ('A' :: ('R' :: ('T' :: x.data)))) =
      'C' :: ("LKCTRL_MCLKCTRLB").data := congrArg String.data h
  simp at h2

theorem udr_ne_usart (x y : String) : ("UDR" ++ x) ≠ ("USART" ++ y) := by
  intro h
  have h2 : 'U' :: ('D' :: ('R' :: x.data)) =
      'U' :: ('S' :: ('A' :: ('R' :: ('T' :: y.data)))) := congrArg String.data h
  simp at h2

theorem ucsr_ne_usart (x y : String) : ("UCSR" ++ x) ≠ ("USART" ++ y) := by
  intro h
  have h2 : 'U' :: ('C' :: ('S' :: ('R' :: x.data))) =
      'U' :: ('S' :: ('A' :: ('R' :: ('T' :: y.data)))) := congrArg String.data h
  simp at h2

theorem udr_ne_port (x y : String) : ("UDR" ++ x) ≠ ("PORT" ++ y) := by
  intro h
  have h2 : 'U' :: ('D' :: ('R' :: x.data)) =
      'P' :: ('O' :: ('R' :: ('T' :: y.data))) := congrArg String.data h
  simp at h2

theorem ucsr_ne_port (x y : String) : ("UCSR" ++ x) ≠ ("PORT" ++ y) := by
  intro h
  have h2 : 'U' :: ('C' :: ('S' :: ('R' :: x.data))) =
      'P' :: ('O' :: ('R' :: ('T' :: y.data))) := congrArg String.data h
  simp at h2

theorem udr_ne_clk (x : String) : ("UDR" ++ x) ≠ clkName := by
  intro h
  have h2 : 'U' :: ('D' :: ('R' :: x.data)) =
      'C' :: ("LKCTRL_MCLKCTRLB").data := congrArg String.data h
  simp at h2

theorem ucsr_ne_clk (x : String) : ("UCSR" ++ x) ≠ clkName := by
  intro h
  have h2 : 'U' :: ('C' :: ('S' :: ('R' :: x.data))) =
      'C' :: ("LKCTRL_MCLKCTRLB").data := congrArg String.data h
  simp at h2

theorem chName_inj_suffix (idx : Nat) (x y : String) (h : x ≠ y) :
    chName idx x ≠ chName idx y := by
  intro he
  have h1 : toString idx ++ x = toString idx ++ y :=
    string_append_left_cancel ("USART") _ _ he
  exact h (string_append_left_cancel _ _ _ h1)

theorem pm_eq_port : pmName = "PORT" ++ "MUX_USARTROUTEA" := rfl

theorem rxName_ne_statusName (idx : Nat) : rxName idx ≠ statusName idx :=
  chName_inj_suffix idx _ _ (by decide)

theorem statusName_inj (i j : Fin 4) (h : i ≠ j) : statusName i.val ≠ statusName j.val := by
  fin_cases i <;> fin_cases j <;> revert h <;> decide

theorem txName_ne_statusName (i j : Fin 4) : txName i.val ≠ statusName j.val := by
  fin_cases i <;> fin_cases j <;> decide

theorem rxName_ne_statusName_f (i j : Fin 4) : rxName i.val ≠ statusName j.val := by
  fin_cases i <;> fin_cases j <;> decide

theorem txName_ne_ctrlb (i j : Fin 4) : txName i.val ≠ ctrlbName j.val := by
  fin_cases i <;> fin_cases j <;> decide

theorem txName_ne_ctrlc (i j : Fin 4) : txName i.val ≠ ctrlcName j.val := by
  fin_cases i <;> fin_cases j <;> decide

theorem rxName_ne_ctrlb (i j : Fin 4) : rxName i.val ≠ ctrlbName j.val := by
  fin_cases i <;> fin_cases j <;> decide

theorem rxName_ne_ctrlc (i j : Fin 4) : rxName i.val ≠ ctrlcName j.val := by
  fin_cases i <;> fin_cases j <;> decide

theorem statusName_ne_ctrlb (i j : Fin 4) : statusName i.val ≠ ctrlbName j.val := by
  fin_cases i <;> fin_cases j <;> decide

theorem statusName_ne_ctrlc (i j : Fin 4) : statusName i.val ≠ ctrlcName j.val := by
  fin_cases i <;> fin_cases j <;> decide

/-! ### Byte-level bit facts -/

theorem byteFacts : ∀ x : Fin 256,
    (((x.val ||| 128) % 256) &&& 32 = x.val &&& 32) ∧
    (((x.val ||| 128) % 256) &&& 128 = 128) ∧
    (((x.val &&& 223) % 256) &&& 32 = 0) ∧
    (((x.val &&& 223) % 256) &&& 128 = x.val &&& 128) ∧
    (((x.val &&& 127) % 256) &&& 128 = 0) ∧
    (((x.val &&& 127) % 256) &&& 32 = x.val &&& 32) ∧
    ((((x.val ||| 64) % 256 ||| 32) % 256) = x.val ||| 64 ||| 32) ∧
    ((x.val ||| 64 ||| 32) &&& 32 = 32) ∧
    ((x.val ||| 64 ||| 32) &&& 64 = 64) ∧
    ((x.val ||| 64 ||| 32) &&& 128 = x.val &&& 128) ∧
    (((x.val ||| 128) % 256) = x.val ||| 128) := by
  decide

theorem maskOr128_and32 (x : Nat) (h : x < 256) :
    ((x ||| 128) % 256) &&& 32 = x &&& 32 := (byteFacts ⟨x, h⟩).1

theorem maskOr128_and128 (x : Nat) (h : x < 256) :
    ((x ||| 128) % 256) &&& 128 = 128 := (byteFacts ⟨x, h⟩).2.1

theorem maskAnd127_and128 (x : Nat) (h : x < 256) :
    ((x &&& 127) % 256) &&& 128 = 0 := (byteFacts ⟨x, h⟩).2.2.2.2.1

theorem maskAnd127_and32 (x : Nat) (h : x < 256) :
    ((x &&& 127) % 256) &&& 32 = x &&& 32 := (byteFacts ⟨x, h⟩).2.2.2.2.2.1

/-! ### validate congruence and frame lemmas -/

theorem validate_eq_of (c : Config) (s t : SimState) (idx : Nat)
    (h1 : reg16get s (baudName idx) = reg16get t (baudName idx))
    (h2 : reg8get s (ddrName c) = reg8get t (ddrName c))
    (h3 : reg8get s pmName = reg8get t pmName)
    (h4 : reg8get s (ctrlbName idx) = reg8get t (ctrlbName idx))
    (h5 : reg8get s (ctrlcName idx) = reg8get t (ctrlcName idx))
    (h6 : reg8get s clkName = reg8get t clkName) :
    validate c s idx = validate c t idx := by
  simp only [validate, h1, h2, h3, h4, h5, h6]

theorem validate_reg8set (c : Config) (s : SimState) (idx : Nat) (n : String) (v : Nat)
    (hd : n ≠ ddrName c) (hp : n ≠ pmName) (hk : n ≠ clkName)
    (hb : n ≠ ctrlbName idx) (hc : n ≠ ctrlcName idx) :
    validate c (reg8set s n v) idx = validate c s idx := by
  refine validate_eq_of c _ _ idx ?_ ?_ ?_ ?_ ?_ ?_
  · exact reg16get_set s n _ v
  · exact reg8get_set_ne s n _ v (Ne.symm hd)
  · exact reg8get_set_ne s n _ v (Ne.symm hp)
  · exact reg8get_set_ne s n _ v (Ne.symm hb)
  · exact reg8get_set_ne s n _ v (Ne.symm hc)
  · exact reg8get_set_ne s n _ v (Ne.symm hk)

theorem validate_set_ch (c : Config) (s : SimState) (idx j : Nat) (suf : String) (v : Nat)
    (hb : chName j suf ≠ ctrlbName idx) (hc : chName j suf ≠ ctrlcName idx) :
    validate c (reg8set s (chName j suf) v) idx = validate c s idx :=
  validate_reg8set c s idx _ v (usart_ne_port _ _)
    (by rw [pm_eq_port]; exact usart_ne_port _ _) (usart_ne_clk _) hb hc

theorem validate_set_udr (c : Config) (s : SimState) (idx j : Nat) (v : Nat) :
    validate c (reg8set s (udrName j) v) idx = validate c s idx :=
  validate_reg8set c s idx _ v (udr_ne_port _ _)
    (by rw [pm_eq_port]; exact udr_ne_port _ _) (udr_ne_clk _)
    (udr_ne_usart _ _) (udr_ne_usart _ _)

theorem validate_set_ucsra (c : Config) (s : SimState) (idx j : Nat) (v : Nat) :
    validate c (reg8set s (ucsraName j) v) idx = validate c s idx :=
  validate_reg8set c s idx _ v (ucsr_ne_port _ _)
    (by rw [pm_eq_port]; exact ucsr_ne_port _ _) (ucsr_ne_clk _)
    (ucsr_ne_usart _ _) (ucsr_ne_usart _ _)

theorem validate_ptyIn (c : Config) (s : SimState) (idx : Nat) (x : List Nat) :
    validate c { s with ptyIn := x } idx = validate c s idx := rfl

theorem validate_ptyOut (c : Config) (s : SimState) (idx : Nat) (x : List Nat) :
    validate c { s with ptyOut := x } idx = validate c s idx := rfl

theorem validate_set_status (c : Config) (s : SimState) (idx j : Nat) (v : Nat)
    (hb : statusName j ≠ ctrlbName idx) (hc : statusName j ≠ ctrlcName idx) :
    validate c (reg8set s (statusName j) v) idx = validate c s idx :=
  validate_set_ch c s idx j ("_STATUS") v hb hc

theorem validate_set_tx (c : Config) (s : SimState) (idx j : Nat) (v : Nat)
    (hb : txName j ≠ ctrlbName idx) (hc : txName j ≠ ctrlcName idx) :
    validate c (reg8set s (txName j) v) idx = validate c s idx :=
  validate_set_ch c s idx j ("_TXDATAL") v hb hc

theorem validate_set_rx (c : Config) (s : SimState) (idx j : Nat) (v : Nat)
    (hb : rxName j ≠ ctrlbName idx) (hc : rxName j ≠ ctrlcName idx) :
    validate c (reg8set s (rxName j) v) idx = validate c s idx :=
  validate_set_ch c s idx j ("_RXDATAL") v hb hc

/-! ### validate is preserved by every wired callback -/

theorem validate_txWrite (c : Config) (s : SimState) (i j : Fin 4) (b : Nat) :
    validate c (txWrite c s j.val b) i.val = validate c s i.val := by
  have key : ∀ v1, validate c (reg8set s (txName j.val) v1) i.val = validate c s i.val :=
    fun v1 => validate_set_tx c s i.val j.val v1 (txName_ne_ctrlb j i) (txName_ne_ctrlc j i)
  simp only [txWrite]
  split
  · split
    · rw [validate_ptyOut]; exact key _
    · exact key _
  · exact key _

theorem validate_udrWrite (c : Config) (s : SimState) (idx j b : Nat) :
    validate c (udrWrite c s j b) idx = validate c s idx := by
  have key : ∀ v1, validate c (reg8set s (udrName j) v1) idx = validate c s idx :=
    fun v1 => validate_set_udr c s idx j v1
  simp only [udrWrite]
  split
  · split
    · rw [validate_ptyOut]; exact key _
    · exact key _
  · exact key _

theorem validate_poll (c : Config) (s : SimState) (i j : Fin 4) :
    validate c (poll s j.val) i.val = validate c s i.val := by
  simp only [poll]
  split
  · rfl
  · split
    · exact validate_set_status c s i.val j.val _
        (statusName_ne_ctrlb j i) (statusName_ne_ctrlc j i)
    · rfl

theorem validate_rxRead (c : Config) (s : SimState) (i j : Fin 4) :
    validate c (rxRead c s j.val).snd i.val = validate c s i.val := by
  simp only [rxRead]
  split
  · rfl
  · split
    · exact validate_poll c s i j
    · cases hp : s.ptyIn with
      | nil => exact validate_poll c s i j
      | cons b rest =>
        rw [validate_poll c _ i j]
        rw [validate_set_status c _ i.val j.val _
          (statusName_ne_ctrlb j i) (statusName_ne_ctrlc j i)]
        rw [validate_set_rx c _ i.val j.val _ (rxName_ne_ctrlb j i) (rxName_ne_ctrlc j i)]
        exact validate_ptyIn c s i.val rest

theorem validate_statusRead (c : Config) (s : SimState) (i j : Fin 4) (r : Nat) :
    validate c (statusRead c s j.val r).snd i.val = validate c s i.val := by
  have hsnd : (statusRead c s j.val r).snd = poll s j.val := by rw [statusRead_eq]
  rw [hsnd]
  exact validate_poll c s i j

theorem validate_stepOp (c : Config) (s : SimState) (i : Fin 4) (o : SimOp) :
    validate c (stepOp c s o) i.val = validate c s i.val := by
  cases o with
  | tx j b => exact validate_txWrite c s i j b
  | rx j => exact validate_rxRead c s i j
  | status j r => exact validate_statusRead c s i j r
  | pollOp j => exact validate_poll c s i j

theorem validate_runOps (c : Config) (s : SimState) (i : Fin 4) (ops : List SimOp) :
    validate c (runOps c s ops) i.val = validate c s i.val := by
  induction ops generalizing s with
  | nil => rfl
  | cons o os ih => rw [runOps, ih, validate_stepOp]

/-! ### The DREIF bit (0x20) is invariant under every callback

With the DREIF-clear in the write callbacks and both set-blocks of the
probabilistic completion preprocessed away, nothing in the simulator ever
changes bit 0x20 of a status cell: the only status-cell stores are the
RXCIF (0x80) set in `poll_pty_nonblocking` and the RXCIF clear in
`rxdatal_read_cb`, both of which leave bit 0x20 alone. -/

theorem reg8get_ptyIn (s : SimState) (x : List Nat) (n : String) :
    reg8get { s with ptyIn := x } n = reg8get s n := rfl

theorem reg8get_ptyOut (s : SimState) (x : List Nat) (n : String) :
    reg8get { s with ptyOut := x } n = reg8get s n := rfl

/-- A transmit write stores only into the channel's data cell: every
status cell keeps its exact value. -/
theorem txWrite_keeps_statusAll (c : Config) (s : SimState) (i j : Fin 4) (b : Nat) :
    reg8get (txWrite c s j.val b) (statusName i.val) = reg8get s (statusName i.val) := by
  have key : ∀ v1, reg8get (reg8set s (txName j.val) v1) (statusName i.val)
      = reg8get s (statusName i.val) :=
    fun v1 => reg8get_set_ne _ _ _ _ (Ne.symm (txName_ne_statusName j i))
  simp only [txWrite]
  split
  · split
    · rw [reg8get_ptyOut]; exact key _
    · exact key _
  · exact key _

theorem dreifEq_poll (s : SimState) (i j : Fin 4) :
    reg8get (poll s j.val) (statusName i.val) &&& 32
      = reg8get s (statusName i.val) &&& 32 := by
  simp only [poll]
  split
  · rfl
  · split
    · by_cases hij : j = i
      · subst hij
        rw [reg8get_set_self, maskOr128_and32 _ (reg8get_lt s _)]
      · rw [reg8get_set_ne _ _ _ _ (statusName_inj i j (Ne.symm hij))]
    · rfl

theorem dreifEq_rxRead (c : Config) (s : SimState) (i j : Fin 4) :
    reg8get (rxRead c s j.val).snd (statusName i.val) &&& 32
      = reg8get s (statusName i.val) &&& 32 := by
  simp only [rxRead]
  split
  · rfl
  · split
    · exact dreifEq_poll s i j
    · cases hp : s.ptyIn with
      | nil => exact dreifEq_poll s i j
      | cons b rest =>
        show reg8get (poll _ j.val) (statusName i.val) &&& 32 = _
        rw [dreifEq_poll _ i j]
        by_cases hij : j = i
        · subst hij
          rw [reg8get_set_self, maskAnd127_and32 _ (reg8get_lt _ _),
            reg8get_set_ne _ _ _ _ (Ne.symm (rxName_ne_statusName j.val)), reg8get_ptyIn]
        · rw [reg8get_set_ne _ _ _ _ (statusName_inj i j (Ne.symm hij)),
            reg8get_set_ne _ _ _ _ (Ne.symm (rxName_ne_statusName_f j i)), reg8get_ptyIn]

theorem dreifEq_stepOp (c : Config) (s : SimState) (i : Fin 4) (o : SimOp) :
    reg8get (stepOp c s o) (statusName i.val) &&& 32
      = reg8get s (statusName i.val) &&& 32 := by
  cases o with
  | tx j b =>
    show reg8get (txWrite c s j.val b) (statusName i.val) &&& 32 = _
    rw [txWrite_keeps_statusAll c s i j b]
  | rx j => exact dreifEq_rxRead c s i j
  | status j r =>
    have hsnd : (statusRead c s j.val r).snd = poll s j.val := by rw [statusRead_eq]
    show reg8get (statusRead c s j.val r).snd (statusName i.val) &&& 32 = _
    rw [hsnd]
    exact dreifEq_poll s i j
  | pollOp j => exact dreifEq_poll s i j

/-- Over any sequence of callback invocations, bit 0x20 of every status
cell keeps its value. -/
theorem dreifEq_runOps (c : Config) (i : Fin 4) (ops : List SimOp) :
    ∀ s : SimState, reg8get (runOps c s ops) (statusName i.val) &&& 32
      = reg8get s (statusName i.val) &&& 32 := by
  induction ops with
  | nil => intro s; rfl
  | cons o os ih =>
    intro s
    calc reg8get (runOps c (stepOp c s o) os) (statusName i.val) &&& 32
        = reg8get (stepOp c s o) (statusName i.val) &&& 32 := ih _
      _ = reg8get s (statusName i.val) &&& 32 := dreifEq_stepOp c s i o

/-! ### Degraded mode: pseudo-terminal creation failed (`master_fd < 0`) -/

theorem poll_closed (s : SimState) (idx : Nat) (h : s.ptyOpen = false) :
    poll s idx = s := by
  simp [poll, h]

theorem rxRead_closed (c : Config) (s : SimState) (idx : Nat) (h : s.ptyOpen = false) :
    rxRead c s idx = (reg8get s (rxName idx), s) := by
  simp only [rxRead, poll_closed s idx h, h]
  split
  · rfl
  · simp

theorem txWrite_closed (c : Config) (s : SimState) (idx b : Nat) (h : s.ptyOpen = false) :
    (txWrite c s idx b).ptyOut = s.ptyOut ∧ (txWrite c s idx b).ptyIn = s.ptyIn ∧
    (txWrite c s idx b).ptyOpen = false := by
  simp only [txWrite]
  split
  · split
    · next hopen =>
      exfalso
      rw [ptyOpen_set, h] at hopen
      exact Bool.false_ne_true hopen
    · exact ⟨rfl, rfl, h⟩
  · exact ⟨rfl, rfl, h⟩

theorem statusRead_closed (c : Config) (s : SimState) (idx r : Nat)
    (h : s.ptyOpen = false) :
    (statusRead c s idx r).snd.ptyOpen = false ∧
    (statusRead c s idx r).snd.ptyIn = s.ptyIn ∧
    (statusRead c s idx r).snd.ptyOut = s.ptyOut ∧
    ∀ n : String, reg8get (statusRead c s idx r).snd n &&& 128 = reg8get s n &&& 128 := by
  have hsnd : (statusRead c s idx r).snd = s := by
    rw [statusRead_eq, poll_closed s idx h]
  rw [hsnd]
  exact ⟨h, rfl, rfl, fun n => rfl⟩

theorem rxcif_txWrite (c : Config) (s : SimState) (i j : Fin 4) (b : Nat) :
    reg8get (txWrite c s j.val b) (statusName i.val) &&& 128
      = reg8get s (statusName i.val) &&& 128 := by
  rw [txWrite_keeps_statusAll c s i j b]

theorem closed_stepOp (c : Config) (s : SimState) (o : SimOp) (h : s.ptyOpen = false) :
    (stepOp c s o).ptyOpen = false ∧ (stepOp c s o).ptyIn = s.ptyIn ∧
    (stepOp c s o).ptyOut = s.ptyOut ∧
    ∀ i : Fin 4, reg8get (stepOp c s o) (statusName i.val) &&& 128
      = reg8get s (statusName i.val) &&& 128 := by
  cases o with
  | tx j b =>
    obtain ⟨hout, hin, hop⟩ := txWrite_closed c s j.val b h
    exact ⟨hop, hin, hout, fun i => rxcif_txWrite c s i j b⟩
  | rx j =>
    simp only [stepOp]
    rw [rxRead_closed c s j.val h]
    exact ⟨h, rfl, rfl, fun i => rfl⟩
  | status j r =>
    obtain ⟨hop, hin, hout, hreg⟩ := statusRead_closed c s j.val r h
    exact ⟨hop, hin, hout, fun i => hreg _⟩
  | pollOp j =>
    simp only [stepOp]
    rw [poll_closed s j.val h]
    exact ⟨h, rfl, rfl, fun i => rfl⟩

/-! ### Same-channel name disjointness (generic in the channel index) -/

theorem statusName_ne_ctrlb_same (idx : Nat) : statusName idx ≠ ctrlbName idx :=
  chName_inj_suffix idx _ _ (by decide)

theorem statusName_ne_ctrlc_same (idx : Nat) : statusName idx ≠ ctrlcName idx :=
  chName_inj_suffix idx _ _ (by decide)

theorem txName_ne_ctrlb_same (idx : Nat) : txName idx ≠ ctrlbName idx :=
  chName_inj_suffix idx _ _ (by decide)

theorem txName_ne_ctrlc_same (idx : Nat) : txName idx ≠ ctrlcName idx :=
  chName_inj_suffix idx _ _ (by decide)

theorem rxName_ne_ctrlb_same (idx : Nat) : rxName idx ≠ ctrlbName idx :=
  chName_inj_suffix idx _ _ (by decide)

theorem rxName_ne_ctrlc_same (idx : Nat) : rxName idx ≠ ctrlcName idx :=
  chName_inj_suffix idx _ _ (by decide)

theorem txName_ne_statusName_same (idx : Nat) : txName idx ≠ statusName idx :=
  chName_inj_suffix idx _ _ (by decide)

theorem ucsr_ne_udr (x y : String) : ("UCSR" ++ x) ≠ ("UDR" ++ y) := by
  intro h
  have h2 : 'U' :: ('C' :: ('S' :: ('R' :: x.data))) =
      'U' :: ('D' :: ('R' :: y.data)) := congrArg String.data h
  simp at h2

theorem rxName_ne_rxName (i j : Fin 4) (h : i ≠ j) : rxName i.val ≠ rxName j.val := by
  fin_cases i <;> fin_cases j <;> revert h <;> decide

theorem txName_ne_rxName (i j : Fin 4) : txName i.val ≠ rxName j.val := by
  fin_cases i <;> fin_cases j <;> decide

/-- The validator's verdict is unchanged by the store-and-clear prefix of a
transmit write on the same channel (the validator reads none of the data or
status cells). -/
theorem validate_txWrite_same (c : Config) (s : SimState) (idx b : Nat) :
    validate c (txWrite c s idx b) idx = validate c s idx := by
  have key : ∀ v1, validate c (reg8set s (txName idx) v1) idx = validate c s idx :=
    fun v1 => validate_set_tx c s idx idx v1 (txName_ne_ctrlb_same idx)
      (txName_ne_ctrlc_same idx)
  simp only [txWrite]
  split
  · split
    · rw [validate_ptyOut]; exact key _
    · exact key _
  · exact key _

/-- A transmit-data write leaves the channel's own status cell exactly
as it was: the DREIF-clear of the source is preprocessed away. -/
theorem txWrite_keeps_status (c : Config) (s : SimState) (idx b : Nat) :
    reg8get (txWrite c s idx b) (statusName idx) = reg8get s (statusName idx) := by
  have key : ∀ v1, reg8get (reg8set s (txName idx) v1) (statusName idx)
      = reg8get s (statusName idx) :=
    fun v1 => reg8get_set_ne _ _ _ _ (Ne.symm (txName_ne_statusName_same idx))
  simp only [txWrite]
  split
  · split
    · rw [reg8get_ptyOut]; exact key _
    · exact key _
  · exact key _

/-- Same for the classic-name write callback and `UCSR%dA`. -/
theorem udrWrite_keeps_ucsra (c : Config) (s : SimState) (idx b : Nat) :
    reg8get (udrWrite c s idx b) (ucsraName idx) = reg8get s (ucsraName idx) := by
  have hne : ucsraName idx ≠ udrName idx := ucsr_ne_udr _ _
  have key : ∀ v1, reg8get (reg8set s (udrName idx) v1) (ucsraName idx)
      = reg8get s (ucsraName idx) :=
    fun v1 => reg8get_set_ne _ _ _ _ hne
  simp only [udrWrite]
  split
  · split
    · rw [reg8get_ptyOut]; exact key _
    · exact key _
  · exact key _

theorem poll_noIn (s : SimState) (idx : Nat) (h : s.ptyIn = []) : poll s idx = s := by
  simp [poll, h]

theorem regStore_store (t : RegTable) (n : String) (a b : Nat) :
    regStore (regStore t n a) n b = regStore t n b := by
  induction t with
  | nil => simp [regStore]
  | cons hd tl ih =>
    obtain ⟨k, w⟩ := hd
    by_cases hk : k = n
    · subst hk; simp [regStore]
    · simp [regStore, hk, ih]

theorem regEnsure_idem (t : RegTable) (n : String) :
    regEnsure (regEnsure t n) n = regEnsure t n := by
  induction t with
  | nil => simp [regEnsure]
  | cons hd tl ih =>
    obtain ⟨k, w⟩ := hd
    by_cases hk : k = n
    · subst hk; simp [regEnsure]
    · simp [regEnsure, hk, ih]

/-! ### Concrete build configuration and states for the spec scenarios -/

/-- The build constants of the spec's scenarios: clock 16,000,000, baud
9600 (the board defaults: ATmega4809, RX = PORTB pin 5, TX = PORTB
pin 4); the mux masks are arbitrary opaque constants. -/
def cfg0 : Config :=
  { fcpu := 16000000, baud := 9600, rxPort := "B", rxPin := 5, txPin := 4,
    muxAndMask := 0x3f, muxOrMask := 0x40 }

/-- A state in which channel 3 is correctly configured (baud divisor 6666,
TX pin output / RX pin input, matching portmux, CTRLB RX+TX enabled in
standard mode, CTRLC 8N1, clock prescaler zero) and the pty is open. -/
def sOk : SimState :=
  { r8 := [(ddrName cfg0, 0x10), (pmName, 0x40), (ctrlbName 3, 0xc0),
           (ctrlcName 3, 0x03), (clkName, 0), (statusName 3, 0x60)],
    r16 := [(baudName 3, 6666)],
    ptyOpen := true, ptyIn := [], ptyOut := [] }

/-- `sOk` with the baud register holding 6667 instead. -/
def sBad6667 : SimState :=
  { sOk with r16 := [(baudName 3, 6667)] }

/-- `sOk` with two bytes pending from the external side. -/
def sRx : SimState :=
  { sOk with ptyIn := [0x41, 0x42] }

/-- The misconfiguration scenario: channel 0 otherwise correctly
configured, but the receive pin's direction bit is left as output
(DIR bit 5 set); the external side has sent byte 0x55. -/
def sMis : SimState :=
  { r8 := [(statusName 0, 0x60), (ddrName cfg0, 0x30), (pmName, 0x40),
           (ctrlbName 0, 0xc0), (ctrlcName 0, 0x03), (clkName, 0)],
    r16 := [(baudName 0, 6666)],
    ptyOpen := true, ptyIn := [0x55], ptyOut := [] }

/-- Fresh start in which pseudo-terminal creation failed
(`master_fd` stayed negative). -/
def sClosed : SimState :=
  { r8 := [(statusName 0, 0x60), (statusName 1, 0x60), (statusName 2, 0x60),
           (statusName 3, 0x60)],
    r16 := [], ptyOpen := false, ptyIn := [], ptyOut := [] }

/-! ### Ensure-rewrites for `validateStep` -/

theorem reg8get_r16e (s : SimState) (k n : String) :
    reg8get { s with r16 := regEnsure s.r16 k } n = reg8get s n := rfl

theorem reg16get_r8e (s : SimState) (k n : String) :
    reg16get { s with r8 := regEnsure s.r8 k } n = reg16get s n := rfl

theorem reg8get_r8e (s : SimState) (k n : String) :
    reg8get { s with r8 := regEnsure s.r8 k } n = reg8get s n := by
  simp [reg8get, regGet_ensure]

theorem reg16get_r16e (s : SimState) (k n : String) :
    reg16get { s with r16 := regEnsure s.r16 k } n = reg16get s n := by
  simp [reg16get, regGet_ensure]

/-! ### Claim theorems -/

/-- C8: looking a register name up in the table never fails: an absent
name is created as a fresh zero-valued cell, subsequent lookups of the
same name return that same cell, a lookup of one name never removes or
resets any existing cell, and the table only grows. -/
theorem c8_register_lookup_total (t : RegTable) (n m : String) (v : Nat) :
    regFind (regEnsure t n) n = some (regGet t n)
    ∧ (regFind t n = none → regFind (regEnsure t n) n = some 0)
    ∧ regEnsure (regEnsure t n) n = regEnsure t n
    ∧ (regFind t m = some v → regFind (regEnsure t n) m = some v)
    ∧ t.length ≤ (regEnsure t n).length := by
  refine ⟨regFind_ensure_self t n, ?_, regEnsure_idem t n,
    regFind_ensure_mono t n m v, length_regEnsure t n⟩
  intro h
  rw [regFind_ensure_self, regGet, h]
  rfl

/-- Witness for C8 at a concrete table. -/
theorem c8_register_lookup_total_witness :
    regFind (regEnsure [] ("R")) ("R") = some 0
    ∧ regFind (regEnsure [(("Q" : String), 7)] ("R")) ("Q") = some 7 := by
  have h1 := c8_register_lookup_total [] ("R") ("R") 0
  have h2 := c8_register_lookup_total [(("Q" : String), 7)] ("R") ("Q") 7
  exact ⟨h1.2.1 rfl, h2.2.2.2.1 (by decide)⟩

/-- The verdict of the effectful validator agrees with the pure one. -/
theorem validateStep_fst (c : Config) (s : SimState) (idx : Nat) :
    (validateStep c s idx).fst = validate c s idx := by
  simp only [validateStep]
  split_ifs <;> simp_all [validate, reg8get, reg16get, regGet_ensure]

theorem validateStep_frame8 (c : Config) (s : SimState) (idx : Nat) :
    ∀ n, reg8get (validateStep c s idx).snd n = reg8get s n := by
  intro n
  simp only [validateStep]
  split_ifs <;> simp [reg8get, regGet_ensure]

theorem validateStep_frame16 (c : Config) (s : SimState) (idx : Nat) :
    ∀ n, reg16get (validateStep c s idx).snd n = reg16get s n := by
  intro n
  simp only [validateStep]
  split_ifs <;> simp [reg16get, regGet_ensure]

theorem validateStep_ptyOpen (c : Config) (s : SimState) (idx : Nat) :
    (validateStep c s idx).snd.ptyOpen = s.ptyOpen := by
  simp only [validateStep]
  split_ifs <;> rfl

theorem validateStep_ptyIn (c : Config) (s : SimState) (idx : Nat) :
    (validateStep c s idx).snd.ptyIn = s.ptyIn := by
  simp only [validateStep]
  split_ifs <;> rfl

theorem validateStep_ptyOut (c : Config) (s : SimState) (idx : Nat) :
    (validateStep c s idx).snd.ptyOut = s.ptyOut := by
  simp only [validateStep]
  split_ifs <;> rfl

/-- C10: `validate_configuration` is read-only with respect to the
simulator state: its verdict matches the pure validator, no register
cell's stored value changes (8-bit or 16-bit), and the pseudo-terminal
state (open flag, pending bytes, emitted bytes) is untouched, on success
and on every early-failure path alike. -/
theorem c10_validate_read_only (c : Config) (s : SimState) (idx : Nat) :
    (validateStep c s idx).fst = validate c s idx
    ∧ (∀ n, reg8get (validateStep c s idx).snd n = reg8get s n)
    ∧ (∀ n, reg16get (validateStep c s idx).snd n = reg16get s n)
    ∧ (validateStep c s idx).snd.ptyOpen = s.ptyOpen
    ∧ (validateStep c s idx).snd.ptyIn = s.ptyIn
    ∧ (validateStep c s idx).snd.ptyOut = s.ptyOut := by
  refine ⟨validateStep_fst c s idx, validateStep_frame8 c s idx,
    validateStep_frame16 c s idx, validateStep_ptyOpen c s idx,
    validateStep_ptyIn c s idx, validateStep_ptyOut c s idx⟩

/-- C3: the validator returns true exactly when every family-specific
check passes (baud divisor, RX/TX pin directions, portmux routing, CTRLB
enables and mode, CTRLC frame format, clock prescaler), and its verdict
for a channel depends only on the registers it reads for that channel,
so a mismatch on one channel cannot change another channel's verdict. -/
theorem c3_validate_iff (c : Config) (s t : SimState) (idx : Nat) :
    (validate c s idx = true ↔
      (reg16get s (baudName idx) = expectedBaud c
       ∧ reg8get s (ddrName c) &&& rxMask c = 0
       ∧ ¬ reg8get s (ddrName c) &&& txMask c = 0
       ∧ reg8get s pmName &&& (255 ^^^ c.muxAndMask % 256) = c.muxOrMask
       ∧ reg8get s (ctrlbName idx) &&& 0xc0 = 0xc0
       ∧ reg8get s (ctrlbName idx) &&& 0x07 = 0
       ∧ reg8get s (ctrlcName idx) = 0x03
       ∧ reg8get s clkName = 0))
    ∧ (reg16get s (baudName idx) = reg16get t (baudName idx) →
       reg8get s (ddrName c) = reg8get t (ddrName c) →
       reg8get s pmName = reg8get t pmName →
       reg8get s (ctrlbName idx) = reg8get t (ctrlbName idx) →
       reg8get s (ctrlcName idx) = reg8get t (ctrlcName idx) →
       reg8get s clkName = reg8get t clkName →
       validate c s idx = validate c t idx) := by
  constructor
  · simp [validate, Bool.and_eq_true, beq_iff_eq, and_assoc]
  · exact validate_eq_of c s t idx

/-- Witness for C3 at the concrete correctly-configured channel 3. -/
theorem c3_validate_iff_witness :
    validate cfg0 sOk 3 = true ∧ validate cfg0 sOk 3 = validate cfg0 sOk 3 := by
  have h := c3_validate_iff cfg0 sOk sOk 3
  exact ⟨h.1.mpr (by decide), h.2 rfl rfl rfl rfl rfl rfl⟩

/-- C5 counterexample: with clock 16,000,000 and baud 9600 the integer
expression 8 × F_CPU / (2 × baud) truncates to 6666, not 6667, and a
channel whose baud register holds 6667 fails the baud check. -/
theorem c5_counterexample :
    expectedBaud cfg0 = 6666 ∧ ¬ expectedBaud cfg0 = 6667
    ∧ validate cfg0 sBad6667 3 = false := by
  decide

/-- C5 (amended): the expected 0-series divisor for clock 16,000,000 and
baud 9600 is 6666; a channel whose baud register holds 6666 (and is
otherwise correctly configured) passes validation, and a transmit write
of 0x41 on it reaches the external side. -/
theorem c5_divisor_6666 :
    expectedBaud cfg0 = 6666
    ∧ validate cfg0 sOk 3 = true
    ∧ (txWrite cfg0 sOk 3 0x41).ptyOut = [0x41] := by
  decide

/-- `sOk` with channel 3's whole status byte zero: the only situation in
which `status_read_cb`'s undamaged `if (!status)` test passes. -/
def sZero3 : SimState :=
  { sOk with r8 := [(ddrName cfg0, 0x10), (pmName, 0x40), (ctrlbName 3, 0xc0),
      (ctrlcName 3, 0x03), (clkName, 0), (statusName 3, 0x00)] }

/-- C6 (code bug): the probabilistic completion transition is dead code.
On a validating channel whose status byte is zero, a triggering residue
(r = 96, `rand() % 100 > 95`) — indeed every residue — changes nothing:
both set-blocks of the trigger branch are preprocessed away in every
compiling build of `sim_regs.cpp` (defining the TXCIF macros makes line
245 assign the `void` result of `raw_store` to a `uint8_t`; defining the
DREIF macros makes lines 230/232/234 syntax errors), so no status read
ever sets transmit-complete or raises data-register-empty, against the
spec's ≈5%-per-poll description and the code's own comments. -/
theorem c6_transition_dead :
    txTrigger 96 = true
    ∧ validate cfg0 sZero3 3 = true
    ∧ reg8get sZero3 (statusName 3) = 0
    ∧ statusRead cfg0 sZero3 3 96 = (0, sZero3)
    ∧ ∀ r : Fin 100, statusRead cfg0 sZero3 3 r.val = (0, sZero3) := by
  decide

theorem poll_ptyIn (s : SimState) (idx : Nat) : (poll s idx).ptyIn = s.ptyIn := by
  simp only [poll]
  split_ifs <;> rfl

theorem poll_ptyOut (s : SimState) (idx : Nat) : (poll s idx).ptyOut = s.ptyOut := by
  simp only [poll]
  split_ifs <;> rfl

theorem poll_ptyOpen (s : SimState) (idx : Nat) : (poll s idx).ptyOpen = s.ptyOpen := by
  simp only [poll]
  split_ifs <;> rfl

theorem poll_reg8get_ne (s : SimState) (idx : Nat) (n : String) (h : n ≠ statusName idx) :
    reg8get (poll s idx) n = reg8get s n := by
  simp only [poll]
  split_ifs with h1 h2
  · rfl
  · exact reg8get_set_ne s _ n _ h
  · rfl

/-- The transmit-data write's effect on the outside: the byte appears on
the pty master exactly when the configuration validates and the master
exists; otherwise the output stream is untouched. -/
theorem txWrite_ptyOut (c : Config) (s : SimState) (idx b : Nat) :
    (txWrite c s idx b).ptyOut
      = s.ptyOut ++ (if validate c s idx = true ∧ s.ptyOpen = true then [b % 256] else []) := by
  have hv2 : validate c (reg8set s (txName idx) b) idx = validate c s idx :=
    validate_set_tx c s idx idx b (txName_ne_ctrlb_same idx) (txName_ne_ctrlc_same idx)
  cases hval : validate c s idx <;> cases hop : s.ptyOpen <;>
    simp [txWrite, hv2, ptyOpen_set, ptyOut_set, hval, hop]

/-- Same fact for the classic-register write callback. -/
theorem udrWrite_ptyOut (c : Config) (s : SimState) (idx b : Nat) :
    (udrWrite c s idx b).ptyOut
      = s.ptyOut ++ (if validate c s idx = true ∧ s.ptyOpen = true then [b % 256] else []) := by
  have hv2 : validate c (reg8set s (udrName idx) b) idx = validate c s idx :=
    validate_set_udr c s idx idx b
  cases hval : validate c s idx <;> cases hop : s.ptyOpen <;>
    simp [udrWrite, hv2, ptyOpen_set, ptyOut_set, hval, hop]

/-- On a channel that fails validation, any number of transmit writes
leaves the pty output stream untouched. -/
theorem txWrite_swallow (c : Config) (idx : Nat) :
    ∀ (bs : List Nat) (s : SimState), validate c s idx = false →
    (bs.foldl (fun st x => txWrite c st idx x) s).ptyOut = s.ptyOut := by
  intro bs
  induction bs with
  | nil => intro s _; rfl
  | cons x xs ih =>
    intro s hval
    have h2 : validate c (txWrite c s idx x) idx = false := by
      rw [validate_txWrite_same]; exact hval
    have h1 : (txWrite c s idx x).ptyOut = s.ptyOut := by
      rw [txWrite_ptyOut, hval]
      simp
    calc (List.foldl (fun st y => txWrite c st idx y) s (x :: xs)).ptyOut
        = (List.foldl (fun st y => txWrite c st idx y) (txWrite c s idx x) xs).ptyOut := rfl
      _ = (txWrite c s idx x).ptyOut := ih _ h2
      _ = s.ptyOut := h1

/-- C1 (code bug): the write stores the byte and forwards it exactly
when validation passes, but it does NOT clear the data-register-empty
bit — at the correctly configured channel 3 with the power-up status
0x60, writing 0x41 stores the byte, emits it on the pty, and leaves the
status cell at 0x60 with bit 0x20 still set.  The "clear the data
register empty flag" block of `txdatal_write_cb` / `udr_write_cb` is
guarded by `#ifdef USART_DREIF_bm` / `UDRE` / `UDRE0`, and defining any
of those macros makes lines 230/232/234 of `sim_regs.cpp` syntax
errors, so the block is preprocessed away in every compiling build —
contradicting the claim, the spec and the code's own comment. -/
theorem c1_dreif_not_cleared :
    reg8get (txWrite cfg0 sOk 3 0x41) (txName 3) = 0x41
    ∧ (txWrite cfg0 sOk 3 0x41).ptyOut = [0x41]
    ∧ reg8get sOk (statusName 3) = 0x60
    ∧ reg8get (txWrite cfg0 sOk 3 0x41) (statusName 3) = 0x60
    ∧ reg8get (txWrite cfg0 sOk 3 0x41) (statusName 3) &&& 0x20 = 0x20
    ∧ reg8get (udrWrite cfg0 sOk 3 0x41) (ucsraName 3) = reg8get sOk (ucsraName 3) := by
  decide

/-- When the master side is open and the status cell's receive-ready bit
is clear, a poll leaves it clear exactly when no bytes are pending. -/
theorem poll_status_bit (t : SimState) (idx : Nat) (hto : t.ptyOpen = true)
    (hbit : reg8get t (statusName idx) &&& 0x80 = 0) :
    reg8get (poll t idx) (statusName idx) &&& 0x80 = (if t.ptyIn = [] then 0 else 0x80) := by
  by_cases htin : t.ptyIn = []
  · rw [poll_noIn t idx htin, if_pos htin]
    exact hbit
  · have hlen : t.ptyIn.length > 0 := by
      cases h2 : t.ptyIn with
      | nil => exact absurd h2 htin
      | cons a l => simp
    simp only [poll]
    rw [if_neg (by simp [hto]), if_pos hlen, reg8get_set_self,
      maskOr128_and128 _ (reg8get_lt t _), if_neg htin]

/-- C4: a receive-data read first captures the stored byte as fallback;
when the channel validates and the bridge holds a byte, it consumes
exactly one byte, stores it in the cell, clears receive-ready (0x80),
re-polls so a follow-on byte shows in status, and returns the consumed
byte; in every other case it returns the fallback. -/
theorem c4_rx_read (c : Config) (s : SimState) (idx : Nat) :
    (validate c s idx = false → rxRead c s idx = (reg8get s (rxName idx), s))
    ∧ (validate c s idx = true → ∀ b rest, s.ptyOpen = true → s.ptyIn = b :: rest →
        (rxRead c s idx).fst = b % 256
        ∧ (rxRead c s idx).snd.ptyIn = rest
        ∧ reg8get (rxRead c s idx).snd (rxName idx) = b % 256
        ∧ reg8get (rxRead c s idx).snd (statusName idx) &&& 0x80
            = (if rest = [] then 0 else 0x80))
    ∧ (validate c s idx = true → (s.ptyIn = [] ∨ s.ptyOpen = false) →
        (rxRead c s idx).fst = reg8get s (rxName idx)
        ∧ (rxRead c s idx).snd.ptyIn = s.ptyIn) := by
  refine ⟨?_, ?_, ?_⟩
  · intro hv
    simp [rxRead, hv]
  · intro hv b rest hop hin
    have heq : rxRead c s idx
        = (b % 256,
           poll (reg8set (reg8set { s with ptyIn := rest } (rxName idx) b) (statusName idx)
             (reg8get (reg8set { s with ptyIn := rest } (rxName idx) b) (statusName idx)
               &&& 0x7f)) idx) := by
      simp [rxRead, hv, hop, hin]
    have hfst : (rxRead c s idx).fst = b % 256 := by rw [heq]
    have hsnd : (rxRead c s idx).snd
        = poll (reg8set (reg8set { s with ptyIn := rest } (rxName idx) b) (statusName idx)
            (reg8get (reg8set { s with ptyIn := rest } (rxName idx) b) (statusName idx)
              &&& 0x7f)) idx := by rw [heq]
    refine ⟨hfst, ?_, ?_, ?_⟩
    · rw [hsnd, poll_ptyIn, ptyIn_set, ptyIn_set]
    · rw [hsnd, poll_reg8get_ne _ _ _ (rxName_ne_statusName idx),
        reg8get_set_ne _ _ _ _ (rxName_ne_statusName idx), reg8get_set_self]
    · have hopen3 : (reg8set (reg8set { s with ptyIn := rest } (rxName idx) b)
          (statusName idx) (reg8get (reg8set { s with ptyIn := rest } (rxName idx) b)
            (statusName idx) &&& 0x7f)).ptyOpen = true := by
        rw [ptyOpen_set, ptyOpen_set]
        exact hop
      have hin3 : (reg8set (reg8set { s with ptyIn := rest } (rxName idx) b)
          (statusName idx) (reg8get (reg8set { s with ptyIn := rest } (rxName idx) b)
            (statusName idx) &&& 0x7f)).ptyIn = rest := by
        rw [ptyIn_set, ptyIn_set]
      have hbit3 : reg8get (reg8set (reg8set { s with ptyIn := rest } (rxName idx) b)
          (statusName idx) (reg8get (reg8set { s with ptyIn := rest } (rxName idx) b)
            (statusName idx) &&& 0x7f)) (statusName idx) &&& 0x80 = 0 := by
        rw [reg8get_set_self, maskAnd127_and128 _ (reg8get_lt _ _)]
      rw [hsnd, poll_status_bit _ idx hopen3 hbit3, hin3]
  · intro hv hcase
    rcases hcase with hin | hop
    · have heq : rxRead c s idx = (reg8get s (rxName idx), poll s idx) := by
        simp [rxRead, hv, hin]
      have hfst : (rxRead c s idx).fst = reg8get s (rxName idx) := by rw [heq]
      have hsnd : (rxRead c s idx).snd = poll s idx := by rw [heq]
      exact ⟨hfst, by rw [hsnd, poll_ptyIn]⟩
    · have heq : rxRead c s idx = (reg8get s (rxName idx), poll s idx) := by
        simp [rxRead, hv, hop]
      have hfst : (rxRead c s idx).fst = reg8get s (rxName idx) := by rw [heq]
      have hsnd : (rxRead c s idx).snd = poll s idx := by rw [heq]
      exact ⟨hfst, by rw [hsnd, poll_ptyIn]⟩

/-- Witness for C4 on the concrete two-pending-bytes state. -/
theorem c4_rx_read_witness :
    (rxRead cfg0 sRx 3).fst = 0x41
    ∧ (rxRead cfg0 sRx 3).snd.ptyIn = [0x42]
    ∧ reg8get (rxRead cfg0 sRx 3).snd (statusName 3) &&& 0x80 = 0x80
    ∧ (rxRead cfg0 sOk 3).fst = reg8get sOk (rxName 3) := by
  have h := (c4_rx_read cfg0 sRx 3).2.1 (by decide) 0x41 [0x42] rfl rfl
  have h2 := (c4_rx_read cfg0 sOk 3).2.2 (by decide) (Or.inl rfl)
  refine ⟨h.1, h.2.1, ?_, h2.1⟩
  rw [h.2.2.2]
  decide

/-- Degraded mode is stable: with the pty never created, no sequence of
callback invocations opens it, feeds it, drains it, or flips any
status cell's receive-ready bit. -/
theorem closed_runOps (c : Config) (ops : List SimOp) :
    ∀ s : SimState, s.ptyOpen = false →
    (runOps c s ops).ptyOpen = false
    ∧ (runOps c s ops).ptyIn = s.ptyIn
    ∧ (runOps c s ops).ptyOut = s.ptyOut
    ∧ ∀ i : Fin 4, reg8get (runOps c s ops) (statusName i.val) &&& 0x80
        = reg8get s (statusName i.val) &&& 0x80 := by
  induction ops with
  | nil => exact fun s h => ⟨h, rfl, rfl, fun i => rfl⟩
  | cons o os ih =>
    intro s h
    obtain ⟨h1, h2, h3, h4⟩ := closed_stepOp c s o h
    obtain ⟨g1, g2, g3, g4⟩ := ih (stepOp c s o) h1
    exact ⟨g1, g2.trans h2, g3.trans h3, fun i => (g4 i).trans (h4 i)⟩

/-- C7: when pseudo-terminal creation failed at startup, every callback
returns without touching the bridge: receive-data reads return the
stored cell value and change nothing, transmit writes emit nothing, and
no status poll ever sets the receive-ready bit, over any sequence of
invocations. -/
theorem c7_degraded_no_pty (c : Config) (s : SimState) (h : s.ptyOpen = false) :
    (∀ idx : Nat, rxRead c s idx = (reg8get s (rxName idx), s))
    ∧ (∀ idx b : Nat, (txWrite c s idx b).ptyOut = s.ptyOut
        ∧ (txWrite c s idx b).ptyIn = s.ptyIn)
    ∧ (∀ idx r : Nat, (statusRead c s idx r).snd.ptyIn = s.ptyIn
        ∧ (statusRead c s idx r).snd.ptyOut = s.ptyOut
        ∧ ∀ n, reg8get (statusRead c s idx r).snd n &&& 0x80 = reg8get s n &&& 0x80)
    ∧ (∀ ops : List SimOp,
        (runOps c s ops).ptyOpen = false
        ∧ (runOps c s ops).ptyIn = s.ptyIn
        ∧ (runOps c s ops).ptyOut = s.ptyOut
        ∧ ∀ i : Fin 4, reg8get (runOps c s ops) (statusName i.val) &&& 0x80
            = reg8get s (statusName i.val) &&& 0x80) := by
  refine ⟨fun idx => rxRead_closed c s idx h,
    fun idx b => ⟨(txWrite_closed c s idx b h).1, (txWrite_closed c s idx b h).2.1⟩,
    fun idx r => ⟨(statusRead_closed c s idx r h).2.1,
      (statusRead_closed c s idx r h).2.2.1, (statusRead_closed c s idx r h).2.2.2⟩,
    fun ops => closed_runOps c ops s h⟩

/-- Witness for C7 on a fresh state whose pty creation failed. -/
theorem c7_degraded_no_pty_witness :
    rxRead cfg0 sClosed 0 = (reg8get sClosed (rxName 0), sClosed)
    ∧ (txWrite cfg0 sClosed 0 0x41).ptyOut = sClosed.ptyOut
    ∧ reg8get (runOps cfg0 sClosed [SimOp.status 0 97, SimOp.rx 0])
        (statusName (0 : Fin 4).val) &&& 0x80
        = reg8get sClosed (statusName (0 : Fin 4).val) &&& 0x80 := by
  have h := c7_degraded_no_pty cfg0 sClosed rfl
  exact ⟨h.1 0, (h.2.1 0 0x41).1, (h.2.2.2 [SimOp.status 0 97, SimOp.rx 0]).2.2.2 0⟩

/-- C9 counterexample: a transmit-data write never clears the
data-register-empty bit — on the never-validating channel 0 with the
power-up status 0x60, the bit (0x20) is set before the write and still
set after it, so the write-ready condition never becomes false in the
first place (the claimed clear is preprocessed away, see C1). -/
theorem c9_counterexample :
    validate cfg0 sMis 0 = false
    ∧ reg8get sMis (statusName 0) &&& 0x20 = 0x20
    ∧ reg8get (txWrite cfg0 sMis 0 0x41) (statusName 0) &&& 0x20 = 0x20 := by
  decide

/-- C9 (amended): a transmit-data write leaves the channel's status cell
untouched, and bit 0x20 of every status cell is invariant under every
sequence of callback invocations on every channel, validated or not: the
probabilistic completion transition is preprocessor-dead code, not a
validation-gated transition, so from the 0x60 power-up default the
data-register-empty bit simply stays set forever. -/
theorem c9_dreif_invariant (c : Config) (s : SimState) (i : Fin 4) (ops : List SimOp) :
    (∀ b, reg8get (txWrite c s i.val b) (statusName i.val)
        = reg8get s (statusName i.val))
    ∧ reg8get (runOps c s ops) (statusName i.val) &&& 0x20
        = reg8get s (statusName i.val) &&& 0x20 :=
  ⟨fun b => txWrite_keeps_status c s i.val b, dreifEq_runOps c i ops s⟩

/-- No callback invocation changes the stored receive-data byte of a
channel that fails validation (the only store into it is gated on that
channel's validation). -/
theorem rxv_stepOp (c : Config) (s : SimState) (i : Fin 4) (o : SimOp)
    (hv : validate c s i.val = false) :
    reg8get (stepOp c s o) (rxName i.val) = reg8get s (rxName i.val) := by
  cases o with
  | tx j b =>
    have key : ∀ v1, reg8get (reg8set s (txName j.val) v1) (rxName i.val)
        = reg8get s (rxName i.val) :=
      fun v1 => reg8get_set_ne _ _ _ _ (Ne.symm (txName_ne_rxName j i))
    simp only [stepOp, txWrite]
    split
    · split
      · rw [reg8get_ptyOut]; exact key _
      · exact key _
    · exact key _
  | rx j =>
    by_cases hij : j = i
    · subst hij
      have hsnd : (rxRead c s j.val).snd = s := by simp [rxRead, hv]
      simp only [stepOp]
      rw [hsnd]
    · simp only [stepOp, rxRead]
      split
      · rfl
      · split
        · exact poll_reg8get_ne s j.val _ (rxName_ne_statusName_f i j)
        · cases hp : s.ptyIn with
          | nil => exact poll_reg8get_ne s j.val _ (rxName_ne_statusName_f i j)
          | cons b rest =>
            show reg8get (poll _ j.val) (rxName i.val) = _
            rw [poll_reg8get_ne _ j.val _ (rxName_ne_statusName_f i j),
              reg8get_set_ne _ _ _ _ (rxName_ne_statusName_f i j),
              reg8get_set_ne _ _ _ _ (rxName_ne_rxName i j (Ne.symm hij))]
            exact reg8get_ptyIn s rest _
  | status j r =>
    have hsnd : (statusRead c s j.val r).snd = poll s j.val := by rw [statusRead_eq]
    show reg8get (statusRead c s j.val r).snd (rxName i.val) = _
    rw [hsnd]
    exact poll_reg8get_ne s j.val _ (rxName_ne_statusName_f i j)
  | pollOp j =>
    exact poll_reg8get_ne s j.val _ (rxName_ne_statusName_f i j)

/-- Trace version of `rxv_stepOp`. -/
theorem rxv_runOps (c : Config) (i : Fin 4) (ops : List SimOp) :
    ∀ s : SimState, validate c s i.val = false →
    reg8get (runOps c s ops) (rxName i.val) = reg8get s (rxName i.val) := by
  induction ops with
  | nil => intro s _; rfl
  | cons o os ih =>
    intro s hv
    calc reg8get (runOps c (stepOp c s o) os) (rxName i.val)
        = reg8get (stepOp c s o) (rxName i.val) :=
          ih _ (by rw [validate_stepOp]; exact hv)
      _ = reg8get s (rxName i.val) := rxv_stepOp c s i o hv

/-- C2 (amended): a receive-data read of a channel that fails validation
returns the stored cell byte and leaves the whole state unchanged, so an
externally sent byte is never consumed by that channel and never
returned by its reads, across any sequence of callback invocations.
However (see the counterexample), status polls do set receive-ready
whenever the bridge holds bytes, regardless of validation. -/
theorem c2_misconfigured_rx (c : Config) (s : SimState) (i : Fin 4) (ops : List SimOp)
    (hv : validate c s i.val = false)
    (hrx : reg8get s (rxName i.val) ≠ 0x55) :
    rxRead c s i.val = (reg8get s (rxName i.val), s)
    ∧ rxRead c (runOps c s ops) i.val = (reg8get s (rxName i.val), runOps c s ops)
    ∧ (rxRead c (runOps c s ops) i.val).fst ≠ 0x55 := by
  have hv2 : validate c (runOps c s ops) i.val = false := by
    rw [validate_runOps]; exact hv
  have hget : reg8get (runOps c s ops) (rxName i.val) = reg8get s (rxName i.val) :=
    rxv_runOps c i ops s hv
  have h1 : rxRead c s i.val = (reg8get s (rxName i.val), s) := by
    simp [rxRead, hv]
  have h2 : rxRead c (runOps c s ops) i.val
      = (reg8get s (rxName i.val), runOps c s ops) := by
    rw [← hget]
    simp [rxRead, hv2]
  refine ⟨h1, h2, ?_⟩
  rw [h2]
  exact hrx

/-- Witness for C2 (amended) on the concrete misconfigured scenario. -/
theorem c2_misconfigured_rx_witness :
    (rxRead cfg0 (runOps cfg0 sMis [SimOp.status 0 0, SimOp.rx 0]) (0 : Fin 4).val).fst
      ≠ 0x55 := by
  have h := c2_misconfigured_rx cfg0 sMis 0 [SimOp.status 0 0, SimOp.rx 0]
    (by decide) (by decide)
  exact h.2.2

/-- C2 counterexample: on misconfigured channel 0 (receive pin direction
bit left as output) with byte 0x55 pending from the external side, a
single status read reports receive-ready (0x80) even though validation
fails — the poll sets the bit unconditionally. -/
theorem c2_counterexample :
    validate cfg0 sMis 0 = false
    ∧ reg8get sMis (ddrName cfg0) &&& rxMask cfg0 ≠ 0
    ∧ sMis.ptyIn = [0x55]
    ∧ (statusRead cfg0 sMis 0 0).fst &&& 0x80 = 0x80 := by
  decide

end AtmegaSim
